import Mathlib

/-!
Shallow embedding of the nuclio vscode client library: the `Dashboard` platform
client (resource model, `getResources` normalization, `deleteResource`,
`invokeFunction`, `createFunction` with its readiness-polling loop) and the
deployment command `deploy` from `deployFunction.ts`.

JavaScript objects are modelled as association lists from property names to
values; possibly-undefined fields are `Option`s; the HTTP transport is a
parameter (the response, or the failure, of each network call is an input of
the embedded operation, and the request an operation would issue is part of
its result). Thrown errors are the `error` side of `Except`.
-/

namespace Nuclio

/-- A JSON-ish JavaScript value, as handled by the client: `undef` is JS
`undefined` (the result of reading an absent property). -/
inductive JsVal : Type where
  | undef : JsVal
  | str : String → JsVal
  | num : Int → JsVal
  | obj : List (String × JsVal) → JsVal

/-- JavaScript property read `o[k]` on an object modelled as an association
list (keys are unique in a real JS object; lookup takes the first match). -/
def lookupKey {β : Type} : List (String × β) → String → Option β
  | [], _ => none
  | p :: l, k => if p.1 = k then some p.2 else lookupKey l k

/-- JavaScript property write `o[k] = v`: overwrite the binding in place when
the key is present, otherwise append it (JS objects preserve insertion
order; a written-over key keeps its position). -/
def setKey {β : Type} : List (String × β) → String → β → List (String × β)
  | [], k, v => [(k, v)]
  | p :: l, k, v => if p.1 = k then (k, v) :: l else p :: setKey l k v

/-- `Object.assign(target, src)` restricted to the source fields: copy every
own property of `src` onto `target`, in order. -/
def assignFields (target : List (String × JsVal)) (src : List (String × JsVal)) :
    List (String × JsVal) :=
  src.foldl (fun acc p => setKey acc p.1 p.2) target

/-- `Object.assign(target, src)` for an arbitrary source value: a non-object
source contributes no string-keyed own properties that the client relies on. -/
def objAssign (target : List (String × JsVal)) (src : JsVal) : List (String × JsVal) :=
  match src with
  | JsVal.obj fields => assignFields target fields
  | _ => target

/-- `Object.keys`. -/
def jsObjKeys (o : List (String × JsVal)) : List String := o.map Prod.fst

/-- JS property read returning `undefined` when the key is absent. -/
def jsObjGet (o : List (String × JsVal)) (k : String) : JsVal :=
  (lookupKey o k).getD JsVal.undef

/-- `ResourceMeta` from `nuclio.ts`. All fields start undefined (the class
declares them without initializers). -/
structure ResourceMeta where
  name : Option String := none
  «namespace» : Option String := none
  labels : Option (List (String × String)) := none
  annotations : Option (List (String × String)) := none

/-- `ProjectSpec` from `nuclio.ts`. -/
structure ProjectSpec where
  displayName : Option String := none
  description : Option String := none

/-- `ProjectConfig` from `nuclio.ts`; its constructor creates fresh empty
`metadata` and `spec`. -/
structure ProjectConfig where
  metadata : ResourceMeta := {}
  spec : ProjectSpec := {}

/-- `Env` from `nuclio.ts`. -/
structure Env where
  name : Option String := none
  value : Option String := none

/-- `DataBinding` from `nuclio.ts`; the `attributes: any` field is an opaque
JS value. -/
structure DataBinding where
  name : Option String := none
  «class» : Option String := none
  kind : Option String := none
  url : Option String := none
  path : Option String := none
  query : Option String := none
  secret : Option String := none
  attributes : Option JsVal := none

/-- `Trigger` from `nuclio.ts`. -/
structure Trigger where
  «class» : Option String := none
  kind : Option String := none
  disabled : Option Bool := none
  maxWorkers : Option Int := none
  url : Option String := none
  paths : Option (List String) := none
  numPartitions : Option Int := none
  user : Option String := none
  secret : Option String := none
  attributes : Option JsVal := none

/-- `Build` from `nuclio.ts`. -/
structure Build where
  path : Option String := none
  functionSourceCode : Option String := none
  functionConfigPath : Option String := none
  tempDir : Option String := none
  registry : Option String := none
  image : Option String := none
  noBaseImagePull : Option Bool := none
  noCache : Option Bool := none
  noCleanup : Option Bool := none
  baseImage : Option String := none
  commands : Option (List String) := none
  scriptPaths : Option (List String) := none
  addedObjectPaths : Option (List (String × String)) := none

/-- `FunctionSpec` from `nuclio.ts`; its constructor creates a fresh `build`. -/
structure FunctionSpec where
  description : Option String := none
  disabled : Option Bool := none
  handler : Option String := none
  runtime : Option String := none
  env : Option (List Env) := none
  image : Option String := none
  imageHash : Option String := none
  replicas : Option Int := none
  minReplicas : Option Int := none
  maxReplicas : Option Int := none
  dataBindings : Option (List (String × DataBinding)) := none
  triggers : Option (List (String × Trigger)) := none
  build : Build := {}
  runRegistry : Option String := none
  runtimeAttributes : Option JsVal := none

/-- `FunctionStatus` from `nuclio.ts`. -/
structure FunctionStatus where
  state : Option String := none
  message : Option String := none
  httpPort : Option Int := none

/-- `FunctionConfig` from `nuclio.ts`; its constructor creates fresh
`metadata`, `spec` and `status`. -/
structure FunctionConfig where
  metadata : ResourceMeta := {}
  spec : FunctionSpec := {}
  status : FunctionStatus := {}

/-- `IResourceIdentifier` from `nuclio.ts`: `namespace` is required, `name`
is optional. -/
structure ResourceIdentifier where
  «namespace» : String
  name : Option String := none

/-- Errors the client throws before or instead of completing a request. -/
inductive ClientError : Type where
  | validation : String → ClientError

/-- The construction-side field defaults of `new ProjectConfig()` as a JS
object: own properties `metadata` and `spec`, both fresh empty objects. -/
def projectCtorFields : List (String × JsVal) :=
  [("metadata", JsVal.obj []), ("spec", JsVal.obj [])]

/-- The construction-side field defaults of `new FunctionConfig()` as a JS
object: `metadata`, `spec` (holding a fresh `build`) and `status`. -/
def functionCtorFields : List (String × JsVal) :=
  [("metadata", JsVal.obj []),
   ("spec", JsVal.obj [("build", JsVal.obj [])]),
   ("status", JsVal.obj [])]

/-- `Dashboard.getResources` (response-normalization part). The HTTP response
body is the `responseData` parameter; header and URL construction only shape
the request and are not needed to state the normalization contract. When the
filter carries a name the body is wrapped as `{single: body}`; otherwise the
body itself is the name-to-resource map. Each entry is `Object.assign`ed onto
a freshly constructed resource (`ctorFields`). -/
def getResources (filterName : Option String) (ctorFields : List (String × JsVal))
    (responseData : JsVal) : List (List (String × JsVal)) :=
  let responseResources : List (String × JsVal) :=
    match filterName with
    | some _ => [("single", responseData)]
    | none =>
      match responseData with
      | JsVal.obj fields => fields
      | _ => []
  (jsObjKeys responseResources).map
    (fun name => objAssign ctorFields (jsObjGet responseResources name))

/-- `Dashboard.getProjects`: delegates to `getResources` with the
`ProjectConfig` constructor. -/
def getProjects (filterName : Option String) (responseData : JsVal) :
    List (List (String × JsVal)) :=
  getResources filterName projectCtorFields responseData

/-- `Dashboard.getFunctions`: delegates to `getResources` with the
`FunctionConfig` constructor (the optional project-name header only shapes
the request). -/
def getFunctions (filterName : Option String) (responseData : JsVal) :
    List (List (String × JsVal)) :=
  getResources filterName functionCtorFields responseData

/-- The delete request `deleteResource` would issue: its URL and the metadata
of the minimal resource record serialized as its payload. -/
structure DeleteRequest where
  url : String
  resourceMeta : ResourceMeta

/-- `Dashboard.deleteResource`: throws before any network call when `id.name`
is undefined; otherwise issues a delete carrying a fresh resource with only
`metadata.name` and `metadata.namespace` set. -/
def deleteResource (url : String) (id : ResourceIdentifier) (resourceName : String) :
    Except ClientError DeleteRequest :=
  match id.name with
  | none => Except.error (ClientError.validation "Resource name must be specified in delete")
  | some nm =>
    Except.ok
      { url := url ++ "/api/" ++ resourceName ++ "s",
        resourceMeta := { name := some nm, «namespace» := some id.«namespace» } }

/-- `Dashboard.deleteProject`. -/
def deleteProject (url : String) (id : ResourceIdentifier) : Except ClientError DeleteRequest :=
  deleteResource url id "project"

/-- `Dashboard.deleteFunction`. -/
def deleteFunction (url : String) (id : ResourceIdentifier) : Except ClientError DeleteRequest :=
  deleteResource url id "function"

/-- `IInvokeOptions` from `nuclio.ts` (header values modelled as strings, the
body as an opaque JS value). -/
structure InvokeOptions where
  method : String
  logLevel : Option String := none
  path : Option String := none
  headers : Option (List (String × String)) := none
  body : Option JsVal := none
  via : Option String := none

/-- The HTTP request `invokeFunction` dispatches: verb, URL, headers, and the
body (`none` when the axios call is made without a data argument). -/
structure HttpRequest where
  method : String
  url : String
  headers : List (String × String)
  body : Option JsVal

/-- `Dashboard.invokeFunction`: throws before any network call when `id.name`
is undefined; otherwise builds the header set and dispatches via
`axios[options.method]`. The body-carrying verb list is `['post', 'put',
'path']` exactly as in the source (note the literal `'path'`). -/
def invokeFunction (url : String) (id : ResourceIdentifier) (options : InvokeOptions) :
    Except ClientError HttpRequest :=
  match id.name with
  | none => Except.error (ClientError.validation "Function name must be specified in invoke")
  | some nm =>
    let headers := options.headers.getD []
    let headers := setKey headers "x-nuclio-function-name" nm
    let headers := setKey headers "x-nuclio-function-namespace" id.«namespace»
    let headers := setKey headers "x-nuclio-invoke-via" (options.via.getD "external-ip")
    let headers :=
      match options.path with
      | some p => setKey headers "x-nuclio-path" p
      | none => headers
    if ["post", "put", "path"].contains options.method then
      Except.ok
        { method := options.method,
          url := url ++ "/api/function_invocations",
          headers := headers,
          body := options.body }
    else
      Except.ok
        { method := options.method,
          url := url ++ "/api/function_invocations",
          headers := headers,
          body := none }

/-- The label key `createFunction` binds a function to its project with. -/
def projectNameLabel : String := "nuclio.io/project-name"

/-- Lines 233-234 of `nuclio.ts`: create `metadata.labels` when absent and
set the project-name label on it. -/
def setProjectLabel (projectName : String) (fc : FunctionConfig) : FunctionConfig :=
  let labels := (fc.metadata.labels).getD []
  { fc with
      metadata := { fc.metadata with labels := some (setKey labels projectNameLabel projectName) } }

/-- JS template interpolation of a possibly-undefined string. -/
def jsTemplate : Option String → String
  | some s => s
  | none => "undefined"

/-- The try/catch around the per-attempt `getFunctions` read: a failing read
is caught and replaced by the empty result. -/
def caughtGetFunctions (r : Except Unit (List FunctionConfig)) : List FunctionConfig :=
  match r with
  | Except.ok l => l
  | Except.error _ => []

/-- How `createFunction`'s polling loop can end. -/
inductive PollOutcome : Type where
  | ready : FunctionConfig → PollOutcome
  | creationFailed : String → PollOutcome
  | silentTimeout : PollOutcome

/-- Whether a `getFunctions` result lets the loop continue: a failed read, an
empty result, or a first element whose state is neither "ready" nor "error". -/
def isNonTerminal (r : Except Unit (List FunctionConfig)) : Bool :=
  match r with
  | Except.error _ => true
  | Except.ok [] => true
  | Except.ok (fc :: _) =>
    !(fc.status.state == some "ready") && !(fc.status.state == some "error")

/-- The readiness-polling loop of `Dashboard.createFunction` (lines 246-276):
`b` gives the result of the `getFunctions` call of each attempt (by attempt
index), the second component counts the `getFunctions` calls actually made.
Fuel is the remaining retry budget; exhausting it is the silent timeout. -/
def pollLoop (b : Nat → Except Unit (List FunctionConfig)) : Nat → Nat → PollOutcome × Nat
  | _, 0 => (PollOutcome.silentTimeout, 0)
  | retryIdx, fuel + 1 =>
    let created : List FunctionConfig := caughtGetFunctions (b retryIdx)
    match created with
    | [] =>
      let r := pollLoop b (retryIdx + 1) fuel
      (r.1, r.2 + 1)
    | fc :: _ =>
      if fc.status.state = some "ready" then
        (PollOutcome.ready fc, 1)
      else if fc.status.state = some "error" then
        (PollOutcome.creationFailed ("Creation failed: " ++ jsTemplate fc.status.message), 1)
      else
        let r := pollLoop b (retryIdx + 1) fuel
        (r.1, r.2 + 1)

/-- How a whole `createFunction` call ends: the initial create request threw
(propagated transport error), the loop returned a ready config, the loop threw
the creation-failed error, or the loop exhausted its budget and the function
returned `undefined` without throwing. -/
inductive CreateFunctionResult : Type where
  | transportError : CreateFunctionResult
  | ready : FunctionConfig → CreateFunctionResult
  | creationFailed : String → CreateFunctionResult
  | silentTimeout : CreateFunctionResult

/-- One run of `Dashboard.createFunction`: the function config as posted
(after label injection), the outcome, and how many polling calls were made. -/
structure CreateFunctionRun where
  postedBody : FunctionConfig
  result : CreateFunctionResult
  pollCalls : Nat

/-- `Dashboard.createFunction` (lines 230-277): inject the project label,
post the config (`createResponse` is the transport outcome of that post; a
failure propagates), then poll up to 60 times at 1000 ms. -/
def createFunctionRun (createResponse : Except Unit Unit)
    (b : Nat → Except Unit (List FunctionConfig))
    (projectName : String) (functionConfig : FunctionConfig) : CreateFunctionRun :=
  let fc := setProjectLabel projectName functionConfig
  match createResponse with
  | Except.error _ =>
    { postedBody := fc, result := CreateFunctionResult.transportError, pollCalls := 0 }
  | Except.ok _ =>
    let r := pollLoop b 0 60
    { postedBody := fc,
      result :=
        match r.1 with
        | PollOutcome.ready f => CreateFunctionResult.ready f
        | PollOutcome.creationFailed m => CreateFunctionResult.creationFailed m
        | PollOutcome.silentTimeout => CreateFunctionResult.silentTimeout,
      pollCalls := r.2 }

/-- `split('.')` on a character list, matching the JS `String.prototype.split`
with a one-character separator. -/
def splitOnDot : List Char → List (List Char)
  | [] => [[]]
  | c :: rest =>
    let r := splitOnDot rest
    if c = '.' then [] :: r
    else
      match r with
      | [] => [[c]]
      | hd :: tl => (c :: hd) :: tl

/-- `getExtension` from `deployFunction.ts`: `filename.split('.').pop()`. -/
def getExtension (filename : String) : String :=
  String.mk ((splitOnDot filename.toList).getLastD [])

/-- The standard base64 alphabet. -/
def b64Char (n : Nat) : Char :=
  ("ABCDEFGHIJKLMNOPQRSTUVWXYZabcdefghijklmnopqrstuvwxyz0123456789+/".toList).getD n 'A'

/-- Base64 of a byte sequence, with `=` padding, as computed by the `base-64`
package's `encode`. -/
def base64EncodeBytes : List Nat → List Char
  | [] => []
  | [a] => [b64Char (a / 4), b64Char (a % 4 * 16), '=', '=']
  | [a, b] => [b64Char (a / 4), b64Char (a % 4 * 16 + b / 16), b64Char (b % 16 * 4), '=']
  | a :: b :: c :: rest =>
    b64Char (a / 4) :: b64Char (a % 4 * 16 + b / 16) :: b64Char (b % 16 * 4 + c / 64) ::
      b64Char (c % 64) :: base64EncodeBytes rest

/-- `base64.encode` applied to a file read as text: the `base-64` package
encodes the string's character codes (it rejects codes above 255; source
files here are plain text). -/
def base64encode (s : String) : String :=
  String.mk (base64EncodeBytes (s.toList.map Char.toNat))

/-- `deploy` from `deployFunction.ts`: scan the directory entries (name and
text content) in order; a `.yaml` entry is parsed into the configuration
(`parse` models `fs.readJsonSync` on the file's content), any other entry
becomes the base64-encoded source candidate, the last of each kind winning.
Then the source code is assigned into the configuration's build section and
`createFunction` is invoked with the project name and that configuration; the
result is that invocation's argument pair. `none` is the crash that reading
`.spec` of an undefined `configFile` would be. -/
def deploy (parse : String → FunctionConfig) (projectName : String)
    (files : List (String × String)) : Option (String × FunctionConfig) :=
  let st := files.foldl
    (fun (st : Option FunctionConfig × Option String) file =>
      if getExtension file.1 = "yaml" then (some (parse file.2), st.2)
      else (st.1, some (base64encode file.2)))
    (none, none)
  match st.1 with
  | none => none
  | some cfg =>
    some (projectName,
      { cfg with
          spec := { cfg.spec with
            build := { cfg.spec.build with functionSourceCode := st.2 } } })

/-! Helper lemmas about the association-list object model. -/

theorem lookupKey_setKey {β : Type} (l : List (String × β)) (k : String) (v : β) (k' : String) :
    lookupKey (setKey l k v) k' = if k' = k then some v else lookupKey l k' := by
  induction l with
  | nil =>
    by_cases h : k' = k
    · simp [setKey, lookupKey, h]
    · have hne : ¬k = k' := fun hc => h hc.symm
      simp [setKey, lookupKey, h, hne]
  | cons hd tl ih =>
    by_cases hhd : hd.1 = k
    · by_cases h : k' = k
      · simp [setKey, lookupKey, hhd, h]
      · have hne1 : ¬k = k' := fun hc => h hc.symm
        have hne2 : ¬hd.1 = k' := by rw [hhd]; exact hne1
        simp [setKey, lookupKey, hhd, h, hne1, hne2]
    · by_cases h3 : hd.1 = k'
      · have hne : ¬k' = k := fun hc => hhd (h3.trans hc)
        simp [setKey, lookupKey, hhd, h3, hne]
      · simp [setKey, lookupKey, hhd, h3, ih]

theorem lookupKey_assignFields_of_notMem (src : List (String × JsVal))
    (target : List (String × JsVal)) (f : String) (h : f ∉ src.map Prod.fst) :
    lookupKey (assignFields target src) f = lookupKey target f := by
  induction src generalizing target with
  | nil => rfl
  | cons hd tl ih =>
    simp only [List.map_cons, List.mem_cons, not_or] at h
    simp only [assignFields, List.foldl_cons]
    rw [show (List.foldl (fun acc p => setKey acc p.1 p.2) (setKey target hd.1 hd.2) tl)
        = assignFields (setKey target hd.1 hd.2) tl from rfl]
    rw [ih (setKey target hd.1 hd.2) h.2, lookupKey_setKey]
    simp [h.1]

theorem lookupKey_assignFields_of_mem (src : List (String × JsVal))
    (target : List (String × JsVal)) (f : String) (v : JsVal)
    (hnd : (src.map Prod.fst).Nodup) (hm : (f, v) ∈ src) :
    lookupKey (assignFields target src) f = some v := by
  induction src generalizing target with
  | nil => cases hm
  | cons hd tl ih =>
    simp only [assignFields, List.foldl_cons]
    rw [show (List.foldl (fun acc p => setKey acc p.1 p.2) (setKey target hd.1 hd.2) tl)
        = assignFields (setKey target hd.1 hd.2) tl from rfl]
    rcases List.mem_cons.mp hm with heq | hmem
    · subst heq
      have hnotm : f ∉ tl.map Prod.fst := by
        simpa using (List.nodup_cons.mp hnd).1
      rw [lookupKey_assignFields_of_notMem tl _ f hnotm, lookupKey_setKey]
      simp
    · exact ih (setKey target hd.1 hd.2) (List.nodup_cons.mp hnd).2 hmem

theorem lookupKey_get_of_nodup {β : Type} (l : List (String × β)) (i : Nat) (hi : i < l.length)
    (hnd : (l.map Prod.fst).Nodup) :
    lookupKey l (l.get ⟨i, hi⟩).1 = some (l.get ⟨i, hi⟩).2 := by
  induction l generalizing i with
  | nil => simp at hi
  | cons hd tl ih =>
    cases i with
    | zero => simp [lookupKey]
    | succ j =>
      have hj : j < tl.length := by simpa using hi
      have hhd : hd.1 ∉ tl.map Prod.fst := (List.nodup_cons.mp hnd).1
      have hmem : tl[j].1 ∈ tl.map Prod.fst :=
        List.mem_map_of_mem Prod.fst (tl.get_mem j hj)
      have hne : ¬hd.1 = tl[j].1 := fun hc => hhd (hc ▸ hmem)
      simpa [lookupKey, hne] using ih j hj (List.nodup_cons.mp hnd).2

/-! Helper lemmas about the polling loop. -/

theorem pollLoop_step_nonTerminal (b : Nat → Except Unit (List FunctionConfig))
    (idx fuel : Nat) (h : isNonTerminal (b idx) = true) :
    pollLoop b idx (fuel + 1)
      = ((pollLoop b (idx + 1) fuel).1, (pollLoop b (idx + 1) fuel).2 + 1) := by
  cases hb : b idx with
  | error e => simp [pollLoop, caughtGetFunctions, hb]
  | ok l =>
    cases l with
    | nil => simp [pollLoop, caughtGetFunctions, hb]
    | cons fc rest =>
      have hcond : ¬fc.status.state = some "ready" ∧ ¬fc.status.state = some "error" := by
        simpa [isNonTerminal, hb] using h
      simp [pollLoop, caughtGetFunctions, hb, hcond.1, hcond.2]

theorem pollLoop_skip (b : Nat → Except Unit (List FunctionConfig)) (k : Nat) :
    ∀ (idx m : Nat), (∀ i, i < k → isNonTerminal (b (idx + i)) = true) →
      pollLoop b idx (k + m)
        = ((pollLoop b (idx + k) m).1, (pollLoop b (idx + k) m).2 + k) := by
  induction k with
  | zero =>
    intro idx m _
    simp
  | succ k ih =>
    intro idx m h
    have h0 : isNonTerminal (b idx) = true := by
      simpa using h 0 (Nat.succ_pos k)
    have heq : k + 1 + m = (k + m) + 1 := by omega
    rw [heq, pollLoop_step_nonTerminal b idx (k + m) h0]
    have hrec := ih (idx + 1) m (fun i hi => by
      have := h (i + 1) (Nat.succ_lt_succ hi)
      simpa [Nat.add_assoc, Nat.add_comm 1 i] using this)
    rw [hrec]
    have hidx : idx + 1 + k = idx + (k + 1) := by omega
    rw [hidx]
    simp [Nat.add_assoc]

/-! Claim theorems. -/

/-- C1: during createFunction's readiness polling, whenever the poll at
attempt `k` (the first terminal-looking one: all earlier attempts were
non-terminal) returns a function whose `status.state` is `"error"`, the
operation fails immediately with the creation-failed error carrying the
server's status message, and exactly `k + 1` polling calls are made — in
particular exactly one polling call when the first poll reports error. -/
theorem createFunction_error_state_fast_fail
    (b : Nat → Except Unit (List FunctionConfig)) (k : Nat)
    (fc : FunctionConfig) (rest : List FunctionConfig)
    (pn : String) (cfg : FunctionConfig)
    (hk : k < 60)
    (hpre : ∀ i, i < k → isNonTerminal (b i) = true)
    (hb : b k = Except.ok (fc :: rest))
    (herr : fc.status.state = some "error") :
    (createFunctionRun (Except.ok ()) b pn cfg).result
        = CreateFunctionResult.creationFailed
            ("Creation failed: " ++ jsTemplate fc.status.message)
      ∧ (createFunctionRun (Except.ok ()) b pn cfg).pollCalls = k + 1 := by
  have hsplit : 60 = k + (60 - k) := by omega
  have hskip := pollLoop_skip b k 0 (60 - k) (fun i hi => by simpa using hpre i hi)
  have hfuel : 60 - k = (60 - k - 1) + 1 := by omega
  have hready : ¬fc.status.state = some "ready" := by rw [herr]; simp
  have hstep : pollLoop b (0 + k) (60 - k)
      = (PollOutcome.creationFailed ("Creation failed: " ++ jsTemplate fc.status.message), 1) := by
    rw [hfuel]
    have h0k : 0 + k = k := by omega
    rw [h0k]
    simp [pollLoop, caughtGetFunctions, hb, hready, herr]
  have hpoll : pollLoop b 0 60
      = (PollOutcome.creationFailed ("Creation failed: " ++ jsTemplate fc.status.message), 1 + k) := by
    rw [hsplit, hskip, hstep]
  constructor
  · simp [createFunctionRun, hpoll]
  · simp [createFunctionRun, hpoll]
    omega

/-- C1 witness: a backend whose first poll reports state "error" with message
"build failed" makes createFunction fail at once with the creation-failed
error carrying that message, after exactly one polling call. -/
theorem createFunction_error_state_fast_fail_witness :
    (createFunctionRun (Except.ok ())
        (fun _ => Except.ok [{ status := { state := some "error", message := some "build failed" } }])
        "p" {}).result
        = CreateFunctionResult.creationFailed "Creation failed: build failed"
      ∧ (createFunctionRun (Except.ok ())
        (fun _ => Except.ok [{ status := { state := some "error", message := some "build failed" } }])
        "p" {}).pollCalls = 1 := by
  have h := createFunction_error_state_fast_fail
    (fun _ => Except.ok [{ status := { state := some "error", message := some "build failed" } }])
    0 { status := { state := some "error", message := some "build failed" } } [] "p" {}
    (by omega) (fun i hi => absurd hi (Nat.not_lt_zero i)) rfl rfl
  exact ⟨h.1, h.2⟩

/-- C2: against a backend that never reports a terminal state within the
60-attempt budget, createFunction makes exactly 60 polling calls and then
ends in the silent-timeout outcome (the loop falls through: the JS function
returns `undefined` and throws nothing). -/
theorem createFunction_silent_timeout
    (b : Nat → Except Unit (List FunctionConfig)) (pn : String) (cfg : FunctionConfig)
    (h : ∀ i, i < 60 → isNonTerminal (b i) = true) :
    (createFunctionRun (Except.ok ()) b pn cfg).result = CreateFunctionResult.silentTimeout
      ∧ (createFunctionRun (Except.ok ()) b pn cfg).pollCalls = 60 := by
  have hskip := pollLoop_skip b 60 0 0 (fun i hi => by simpa using h i hi)
  have hzero : pollLoop b 60 0 = (PollOutcome.silentTimeout, 0) := rfl
  have hpoll : pollLoop b 0 60 = (PollOutcome.silentTimeout, 60) := by
    simpa [hzero] using hskip
  constructor
  · simp [createFunctionRun, hpoll]
  · simp [createFunctionRun, hpoll]

/-- C2 witness: a backend whose reads always come back empty ("not found")
drives createFunction into the silent timeout after exactly 60 polls. -/
theorem createFunction_silent_timeout_witness :
    (createFunctionRun (Except.ok ()) (fun _ => Except.ok []) "p" {}).result
        = CreateFunctionResult.silentTimeout
      ∧ (createFunctionRun (Except.ok ()) (fun _ => Except.ok []) "p" {}).pollCalls = 60 :=
  createFunction_silent_timeout (fun _ => Except.ok []) "p" {} (fun _ _ => rfl)

/-- C3: a failure of the per-attempt getFunctions read is suppressed and is
indistinguishable from an empty "not found yet" result (first conjunct), and
the loop then continues with the next attempt (second conjunct); whereas a
transport failure of the initial create request propagates: the run ends as
a transport error with zero polling calls (third conjunct). -/
theorem createFunction_poll_error_suppression :
    (∀ (b : Nat → Except Unit (List FunctionConfig)) (idx fuel : Nat),
        pollLoop b idx fuel
          = pollLoop (fun i => Except.ok (caughtGetFunctions (b i))) idx fuel)
  ∧ (∀ (b : Nat → Except Unit (List FunctionConfig)) (idx fuel : Nat),
        b idx = Except.error () →
        pollLoop b idx (fuel + 1)
          = ((pollLoop b (idx + 1) fuel).1, (pollLoop b (idx + 1) fuel).2 + 1))
  ∧ (∀ (b : Nat → Except Unit (List FunctionConfig)) (pn : String) (cfg : FunctionConfig),
        (createFunctionRun (Except.error ()) b pn cfg).result
            = CreateFunctionResult.transportError
          ∧ (createFunctionRun (Except.error ()) b pn cfg).pollCalls = 0) := by
  refine ⟨?_, ?_, ?_⟩
  · intro b idx fuel
    induction fuel generalizing idx with
    | zero => rfl
    | succ n ih =>
      have hrw : caughtGetFunctions (Except.ok (caughtGetFunctions (b idx)))
          = caughtGetFunctions (b idx) := rfl
      simp only [pollLoop, hrw]
      cases caughtGetFunctions (b idx) with
      | nil => simp [ih]
      | cons fc rest =>
        by_cases h1 : fc.status.state = some "ready"
        · simp [h1]
        · by_cases h2 : fc.status.state = some "error"
          · simp [h1, h2]
          · simp [h1, h2, ih]
  · intro b idx fuel hb
    exact pollLoop_step_nonTerminal b idx fuel (by simp [isNonTerminal, hb])
  · intro b pn cfg
    exact ⟨rfl, rfl⟩

/-- C3 witness: with a backend whose first read throws, one loop step is
exactly a continuation (one more call, outcome of the remaining attempts),
and an initial-create transport failure yields a transport-error run with no
polling calls. -/
theorem createFunction_poll_error_suppression_witness :
    (pollLoop (fun _ => Except.error ()) 0 1
        = ((pollLoop (fun _ => Except.error ()) 1 0).1,
           (pollLoop (fun _ => Except.error ()) 1 0).2 + 1))
  ∧ (createFunctionRun (Except.error ()) (fun _ => Except.error ()) "p" {}).result
      = CreateFunctionResult.transportError :=
  ⟨createFunction_poll_error_suppression.2.1 (fun _ => Except.error ()) 0 0 rfl,
   (createFunction_poll_error_suppression.2.2 (fun _ => Except.error ()) "p" {}).1⟩

/-- C4 (code defect): the claim says every post/put/patch-class method sends
`options.body`, but the source's body-carrying verb list is `['post', 'put',
'path']` — a typo for `'patch'`. So an invocation with method `"patch"` and a
body set dispatches with no body, while the non-HTTP-verb `"path"` would be
given one. -/
theorem invokeFunction_patch_sends_no_body :
    ((invokeFunction "u" { «namespace» := "ns", name := some "f" }
        { method := "patch", body := some (JsVal.str "payload") }).map (fun r => r.body)
      = Except.ok none)
  ∧ ((invokeFunction "u" { «namespace» := "ns", name := some "f" }
        { method := "path", body := some (JsVal.str "payload") }).map (fun r => r.body)
      = Except.ok (some (JsVal.str "payload")))
  ∧ ((invokeFunction "u" { «namespace» := "ns", name := some "f" }
        { method := "post", body := some (JsVal.str "payload") }).map (fun r => r.body)
      = Except.ok (some (JsVal.str "payload"))) :=
  ⟨rfl, rfl, rfl⟩

/-- C5: for every filter with a name set, getProjects and getFunctions return
a sequence of exactly one element, constructed by assigning the
single-resource response body onto a freshly constructed resource. -/
theorem getResources_name_set_singleton (n : String) (d : JsVal) :
    getProjects (some n) d = [objAssign projectCtorFields d]
  ∧ getFunctions (some n) d = [objAssign functionCtorFields d] :=
  ⟨rfl, rfl⟩

/-- C6: for a filter with no name, the returned sequence's length equals the
number of keys of the map-shaped response, and the i-th returned element
carries every field present in the i-th map entry (keys of a real JS object
are distinct, hence the nodup hypotheses). -/
theorem getResources_name_unset_map (ctorFields : List (String × JsVal))
    (entries : List (String × JsVal)) :
    (getResources none ctorFields (JsVal.obj entries)).length = entries.length
  ∧ ∀ i, i < entries.length →
      ∀ flds f v,
        (entries.getD i ("", JsVal.undef)).2 = JsVal.obj flds →
        (entries.map Prod.fst).Nodup →
        (flds.map Prod.fst).Nodup →
        (f, v) ∈ flds →
        lookupKey ((getResources none ctorFields (JsVal.obj entries)).getD i []) f
          = some v := by
  constructor
  · simp [getResources, jsObjKeys]
  · intro i hi flds f v hobj hnd1 hnd2 hmem
    have hlen : i < (getResources none ctorFields (JsVal.obj entries)).length := by
      simpa [getResources, jsObjKeys] using hi
    rw [List.getD_eq_getElem _ _ hlen]
    rw [List.getD_eq_getElem _ _ hi] at hobj
    have helem : (getResources none ctorFields (JsVal.obj entries))[i]
        = objAssign ctorFields (jsObjGet entries (entries[i].1)) := by
      simp [getResources, jsObjKeys, List.getElem_map]
    have hlook : jsObjGet entries (entries[i].1) = entries[i].2 := by
      have hg := lookupKey_get_of_nodup entries i hi hnd1
      simp only [List.get_eq_getElem] at hg
      simp [jsObjGet, hg]
    rw [helem, hlook, hobj]
    exact lookupKey_assignFields_of_mem flds ctorFields f v hnd2 hmem

/-- C6 witness: a one-entry map response produces a one-entry sequence whose
element carries the entry's field. -/
theorem getResources_name_unset_map_witness :
    lookupKey ((getResources none [("metadata", JsVal.obj [])]
        (JsVal.obj [("a", JsVal.obj [("x", JsVal.str "1")])])).getD 0 []) "x"
      = some (JsVal.str "1") :=
  (getResources_name_unset_map [("metadata", JsVal.obj [])]
      [("a", JsVal.obj [("x", JsVal.str "1")])]).2 0 (by simp)
      [("x", JsVal.str "1")] "x" (JsVal.str "1") rfl (by simp) (by simp)
      (List.mem_singleton.mpr rfl)

/-- C7: with `id.name` undefined, deleteProject, deleteFunction and
invokeFunction all fail with the validation error before any network call
(the embedded operations return the error instead of a request record). -/
theorem delete_invoke_name_validation (url : String) (id : ResourceIdentifier)
    (hname : id.name = none) :
    deleteProject url id
        = Except.error (ClientError.validation "Resource name must be specified in delete")
  ∧ deleteFunction url id
        = Except.error (ClientError.validation "Resource name must be specified in delete")
  ∧ ∀ options : InvokeOptions,
      invokeFunction url id options
        = Except.error (ClientError.validation "Function name must be specified in invoke") := by
  refine ⟨?_, ?_, ?_⟩
  · simp [deleteProject, deleteResource, hname]
  · simp [deleteFunction, deleteResource, hname]
  · intro options
    simp [invokeFunction, hname]

/-- C7 witness: a concrete nameless identifier is rejected by deleteProject. -/
theorem delete_invoke_name_validation_witness :
    deleteProject "u" { «namespace» := "ns" }
        = Except.error (ClientError.validation "Resource name must be specified in delete")
  ∧ (invokeFunction "u" { «namespace» := "ns" } { method := "get" }
        = Except.error (ClientError.validation "Function name must be specified in invoke")) :=
  ⟨(delete_invoke_name_validation "u" { «namespace» := "ns" } rfl).1,
   (delete_invoke_name_validation "u" { «namespace» := "ns" } rfl).2.2 { method := "get" }⟩

/-- C8: before the create request is issued (the posted body), the function's
metadata.labels — created when absent — maps the project-binding label key to
projectName, whatever value that key had before. -/
theorem createFunction_sets_project_label (post : Except Unit Unit)
    (b : Nat → Except Unit (List FunctionConfig)) (pn : String) (cfg : FunctionConfig) :
    lookupKey (((createFunctionRun post b pn cfg).postedBody.metadata.labels).getD [])
        projectNameLabel = some pn := by
  have hbody : (createFunctionRun post b pn cfg).postedBody = setProjectLabel pn cfg := by
    cases post <;> rfl
  rw [hbody]
  simp [setProjectLabel, lookupKey_setKey]

/-- C9: for a directory holding exactly one .yaml configuration file and one
non-yaml source file (in either enumeration order), the deployment command
invokes createFunction with the enclosing project's name and the parsed
configuration whose build source-code field is the base64 encoding of the
source file's text. -/
theorem deploy_assembles_config (parse : String → FunctionConfig)
    (pn cn cc sn sc : String)
    (hcfg : getExtension cn = "yaml") (hsrc : ¬getExtension sn = "yaml")
    (files : List (String × String))
    (hfiles : files = [(cn, cc), (sn, sc)] ∨ files = [(sn, sc), (cn, cc)]) :
    deploy parse pn files
      = some (pn,
          { parse cc with
              spec := { (parse cc).spec with
                build := { (parse cc).spec.build with
                  functionSourceCode := some (base64encode sc) } } }) := by
  rcases hfiles with h | h <;> subst h <;> simp [deploy, hcfg, hsrc]

/-- C9 witness: a directory with `func.yaml` and `handler.py`. -/
theorem deploy_assembles_config_witness :
    deploy (fun _ => {}) "proj" [("func.yaml", "cfgtext"), ("handler.py", "hi")]
      = some ("proj",
          { ({} : FunctionConfig) with
              spec := { ({} : FunctionConfig).spec with
                build := { ({} : FunctionConfig).spec.build with
                  functionSourceCode := some (base64encode "hi") } } }) :=
  deploy_assembles_config (fun _ => {}) "proj" "func.yaml" "cfgtext" "handler.py" "hi"
    rfl (by decide) _ (Or.inl rfl)

/-- C10: createFunction's label injection is the only change to the function
configuration it mutates: the posted body keeps the argument's spec, status,
metadata.name, metadata.namespace and metadata.annotations, and every label
key other than the project-binding key keeps its value. -/
theorem createFunction_frame (post : Except Unit Unit)
    (b : Nat → Except Unit (List FunctionConfig)) (pn : String) (cfg : FunctionConfig) :
    ((createFunctionRun post b pn cfg).postedBody.spec = cfg.spec)
  ∧ ((createFunctionRun post b pn cfg).postedBody.status = cfg.status)
  ∧ ((createFunctionRun post b pn cfg).postedBody.metadata.name = cfg.metadata.name)
  ∧ ((createFunctionRun post b pn cfg).postedBody.metadata.«namespace»
      = cfg.metadata.«namespace»)
  ∧ ((createFunctionRun post b pn cfg).postedBody.metadata.annotations
      = cfg.metadata.annotations)
  ∧ ∀ k, ¬k = projectNameLabel →
      lookupKey (((createFunctionRun post b pn cfg).postedBody.metadata.labels).getD []) k
        = lookupKey ((cfg.metadata.labels).getD []) k := by
  have hbody : (createFunctionRun post b pn cfg).postedBody = setProjectLabel pn cfg := by
    cases post <;> rfl
  rw [hbody]
  refine ⟨rfl, rfl, rfl, rfl, rfl, ?_⟩
  intro k hk
  simp [setProjectLabel, lookupKey_setKey, hk]

/-- C10 witness: a pre-existing label under a different key is preserved. -/
theorem createFunction_frame_witness :
    lookupKey (((createFunctionRun (Except.ok ()) (fun _ => Except.ok []) "p"
        { metadata := { labels := some [("team", "a")] } }).postedBody.metadata.labels).getD [])
        "team"
      = lookupKey (((({ metadata := { labels := some [("team", "a")] } }
          : FunctionConfig).metadata.labels)).getD []) "team" :=
  (createFunction_frame (Except.ok ()) (fun _ => Except.ok []) "p"
      { metadata := { labels := some [("team", "a")] } }).2.2.2.2.2 "team" (by decide)

end Nuclio
